import Mathlib

/-!
Verification of `pkg/builder/webhook.go` (controller-runtime webhook builder).

The Go source is embedded shallowly:
* Go strings are `List Char` (the builder only manipulates ASCII paths);
* the builder's mutable fields become explicit state passing;
* external collaborators that are not part of the source file
  (`net/http.ServeMux`, `admission.DefaultingWebhookFor`,
  `admission.ValidatingWebhookFor`, `conversion.CheckConvertibility`,
  `apiutil.GVKForObject`, the ambient `getConfig` loader, the logger)
  are modelled from the specification, as marked on each definition.
-/

namespace Builder

/-- Go strings, embedded as lists of characters. -/
abbrev GoString := List Char

/-- `beginsWith pat s` is Go's `strings.HasPrefix(s, pat)`: `s` starts with `pat`. -/
def beginsWith : GoString → GoString → Bool
  | [], _ => true
  | _ :: _, [] => false
  | c :: ps, d :: ds => c == d && beginsWith ps ds

/-- Worker for `stringsReplaceAll`.  `skip` counts characters of an already
matched pattern occurrence that must still be consumed without rescanning,
which yields Go's leftmost non-overlapping replacement order. -/
def replaceLoop (old new : GoString) : Nat → GoString → GoString
  | _, [] => []
  | s + 1, _ :: rest => replaceLoop old new s rest
  | 0, c :: rest =>
    if beginsWith old (c :: rest) && !old.isEmpty then
      new ++ replaceLoop old new (old.length - 1) rest
    else
      c :: replaceLoop old new 0 rest

/-- Go `strings.Replace(s, old, new, -1)` for a non-empty pattern: replace all
leftmost non-overlapping occurrences of `old` by `new`.  (The Go behaviour for
an empty pattern is not modelled; the builder only uses the pattern ".".) -/
def stringsReplaceAll (old new s : GoString) : GoString :=
  replaceLoop old new 0 s

/-- Per-character dot-to-dash substitution; the spec's description of the
group encoding ("every dot replaced by a dash"). -/
def dotDash (c : Char) : Char :=
  if c = '.' then '-' else c

/-- ASCII case folding of one character, the ASCII fragment of Go's
`unicode.ToLower` (the builder's GVK components are ASCII). -/
def lowerChar (c : Char) : Char :=
  if 65 ≤ c.toNat ∧ c.toNat ≤ 90 then Char.ofNat (c.toNat + 32) else c

/-- Go `strings.ToLower` on ASCII strings. -/
def lowerString (s : GoString) : GoString :=
  s.map lowerChar

/-- `schema.GroupVersionKind`. -/
structure GVK where
  group : GoString
  version : GoString
  kind : GoString
deriving DecidableEq

/-- The zero value of `schema.GroupVersionKind`. -/
def GVK.empty : GVK := ⟨[], [], []⟩

/-- `generateMutatePath` from the source:
`"/mutate-" + strings.Replace(gvk.Group, ".", "-", -1) + "-" + gvk.Version + "-" + strings.ToLower(gvk.Kind)`. -/
def generateMutatePath (gvk : GVK) : GoString :=
  "/mutate-".toList ++ stringsReplaceAll ['.'] ['-'] gvk.group ++ ['-'] ++
    gvk.version ++ ['-'] ++ lowerString gvk.kind

/-- `generateValidatePath` from the source:
`"/validate-" + strings.Replace(gvk.Group, ".", "-", -1) + "-" + gvk.Version + "-" + strings.ToLower(gvk.Kind)`. -/
def generateValidatePath (gvk : GVK) : GoString :=
  "/validate-".toList ++ stringsReplaceAll ['.'] ['-'] gvk.group ++ ['-'] ++
    gvk.version ++ ['-'] ++ lowerString gvk.kind

/-- `rest.Config`, an opaque connection-configuration handle distinguished by
an identifier (the builder never inspects it). -/
structure RestConfig where
  cell : Nat
deriving DecidableEq

/-- A target type (`runtime.Object`), abstracted to what the builder observes:
an identifier and its admission capabilities.  `defaultingWebhookNil` /
`validatingWebhookNil` record whether the external handler constructor yields
a null handler for this type ("may return a null handler", §6 of the spec). -/
structure ApiType where
  id : Nat
  isDefaulter : Bool
  isValidator : Bool
  defaultingWebhookNil : Bool
  validatingWebhookNil : Bool
deriving DecidableEq

/-- An HTTP handler stored in the server's path table.  `notFound` is the
`net/http` not-found handler returned on a lookup miss. -/
inductive Handler where
  | notFound
  | mutating (id : Nat)
  | validating (id : Nat)
  | custom (n : Nat)
deriving DecidableEq

/-- The shared webhook server's path-to-handler table (`WebhookMux`). -/
abbrev Mux := List (GoString × Handler)

/-- Modelled from the spec: `net/http` pattern matching used by the server's
path-to-handler table (an external collaborator).  A pattern ending in a
slash matches every path it is a prefix of; any other pattern matches only
exactly; the empty pattern matches nothing. -/
def patternMatches (pattern path : GoString) : Bool :=
  match pattern with
  | [] => false
  | _ :: _ =>
    if pattern.getLast? == some '/' then beginsWith pattern path
    else pattern == path

/-- One step of the longest-match selection: prefer entry `f` over the best
candidate so far when `f` matches and is strictly longer. -/
def better (path : GoString) (f : GoString × Handler) :
    Option (GoString × Handler) → Option (GoString × Handler)
  | none => if patternMatches f.1 path then some f else none
  | some b => if patternMatches f.1 path && b.1.length < f.1.length then some f else some b

/-- Modelled from the spec: the table lookup selects the longest matching
pattern (`net/http.ServeMux` semantics, an external collaborator). -/
def bestMatch (path : GoString) : Mux → Option (GoString × Handler)
  | [] => none
  | f :: rest => better path f (bestMatch path rest)

/-- Modelled from the spec: `WebhookMux.Handler(request-for-path)`: the pair
(handler, matched pattern).  On a miss the server returns its (non-null)
not-found handler and the empty pattern. -/
def muxLookup (m : Mux) (path : GoString) : Option Handler × GoString :=
  match bestMatch path m with
  | some e => (some e.2, e.1)
  | none => (some Handler.notFound, [])

/-- Modelled from the spec: the server's path-registration operation
(`GetWebhookServer().Register(path, handler)`) adds an entry to the table. -/
def muxRegister (m : Mux) (path : GoString) (h : Handler) : Mux :=
  (path, h) :: m

/-- `manager.Manager`, abstracted to what the builder uses: a config and a
type registry (scheme).  The scheme maps a target type's identifier to its
GVK, or to `none` when the type is unknown. -/
structure Manager where
  config : RestConfig
  scheme : Nat → Option GVK

/-- The builder's fields (`WebhookBuilder`).  Go nil pointers/interfaces are
`none`. -/
structure WebhookBuilder where
  apiType : Option ApiType
  gvk : GVK
  mgr : Option Manager
  config : Option RestConfig

/-- The ambient environment: the external config loader `getConfig` and the
convertibility checker, both modelled from the spec (their code is not part
of the source file). -/
structure Env where
  ambientConfig : Option RestConfig
  checkConvertibility : Nat → Bool

/-- Errors returned by `Complete`. -/
inductive GoError where
  | configResolution
  | typeResolution (id : Nat)
deriving DecidableEq

/-- How a call to `Complete` terminates: normal return of `nil`, normal
return of an error, or a runtime panic (nil-interface dereference). -/
inductive GoResult where
  | ok
  | err (e : GoError)
  | panicked
deriving DecidableEq

/-- Log records emitted by the builder (`log.Info` / `log.Error`). -/
inductive LogEntry where
  | registeringMutating (gvk : GVK) (path : GoString)
  | registeringValidating (gvk : GVK) (path : GoString)
  | conversionCheckFailed (gvk : GVK)
deriving DecidableEq

/-- The observable result of running `Complete`: the returned value, the
builder's fields, the server's path table and the log. -/
structure RunOut where
  res : GoResult
  blder : WebhookBuilder
  mux : Mux
  log : List LogEntry

/-- Modelled from the spec: `apiutil.GVKForObject(obj, scheme)` (an external
collaborator) maps the target type to its GVK through the registry, failing
with a type-resolution error when the type is unknown; a nil object cannot be
resolved either. -/
def GVKForObject (t : Option ApiType) (scheme : Nat → Option GVK) : Except GoError GVK :=
  match t with
  | none => Except.error (GoError.typeResolution 0)
  | some a =>
    match scheme a.id with
    | some gvk => Except.ok gvk
    | none => Except.error (GoError.typeResolution a.id)

/-- Modelled from the spec: `admission.DefaultingWebhookFor(defaulter)` (an
external collaborator) builds a mutating handler, possibly null. -/
def DefaultingWebhookFor (t : ApiType) : Option Handler :=
  if t.defaultingWebhookNil then none else some (Handler.mutating t.id)

/-- Modelled from the spec: `admission.ValidatingWebhookFor(validator)` (an
external collaborator) builds a validating handler, possibly null. -/
def ValidatingWebhookFor (t : ApiType) : Option Handler :=
  if t.validatingWebhookNil then none else some (Handler.validating t.id)

/-- `(*WebhookBuilder).isAlreadyHandled`: synthesize a request for `path`,
look it up in the server's table, and report a duplicate only when a handler
came back and the matched pattern equals the requested path exactly. -/
def isAlreadyHandled (mux : Mux) (path : GoString) : Bool :=
  let hp := muxLookup mux path
  hp.2 == path && hp.1.isSome

/-- `(*WebhookBuilder).registerDefaultingWebhook`: if the type implements
`admission.Defaulter` and the constructed handler is non-null, register it at
the mutate path unless that exact path is already handled.  Returns the
updated table and the log lines emitted. -/
def registerDefaultingWebhook (b : WebhookBuilder) (mux : Mux) : Mux × List LogEntry :=
  match b.apiType with
  | none => (mux, [])
  | some t =>
    if t.isDefaulter then
      match DefaultingWebhookFor t with
      | none => (mux, [])
      | some mwh =>
        let path := generateMutatePath b.gvk
        if isAlreadyHandled mux path then (mux, [])
        else (muxRegister mux path mwh, [LogEntry.registeringMutating b.gvk path])
    else (mux, [])

/-- `(*WebhookBuilder).registerValidatingWebhook`, symmetric to the
defaulting case, keyed on `admission.Validator` and the validate path. -/
def registerValidatingWebhook (b : WebhookBuilder) (mux : Mux) : Mux × List LogEntry :=
  match b.apiType with
  | none => (mux, [])
  | some t =>
    if t.isValidator then
      match ValidatingWebhookFor t with
      | none => (mux, [])
      | some vwh =>
        let path := generateValidatePath b.gvk
        if isAlreadyHandled mux path then (mux, [])
        else (muxRegister mux path vwh, [LogEntry.registeringValidating b.gvk path])
    else (mux, [])

/-- `(*WebhookBuilder).registerWebhooks`: resolve the GVK through the
manager's scheme (a nil manager panics on the `GetScheme` call), then run
both conditional registrations, then the advisory conversion check whose
failure is only logged. -/
def registerWebhooks (env : Env) (b : WebhookBuilder) (mux : Mux) : RunOut :=
  match b.mgr with
  | none => ⟨GoResult.panicked, b, mux, []⟩
  | some m =>
    match GVKForObject b.apiType m.scheme with
    | Except.error e => ⟨GoResult.err e, { b with gvk := GVK.empty }, mux, []⟩
    | Except.ok gvk =>
      let b' := { b with gvk := gvk }
      let r1 := registerDefaultingWebhook b' mux
      let r2 := registerValidatingWebhook b' r1.1
      let convLog :=
        match b'.apiType with
        | none => []
        | some t =>
          if env.checkConvertibility t.id then []
          else [LogEntry.conversionCheckFailed b'.gvk]
      ⟨GoResult.ok, b', r2.1, r1.2 ++ r2.2 ++ convLog⟩

/-- `(*WebhookBuilder).loadRestConfig`: keep an explicit config; else take
the manager's config; else fall back to the ambient loader `getConfig`. -/
def loadRestConfig (env : Env) (b : WebhookBuilder) : Except GoError WebhookBuilder :=
  if b.config.isSome then Except.ok b
  else
    match b.mgr with
    | some m => Except.ok { b with config := some m.config }
    | none =>
      match env.ambientConfig with
      | some c => Except.ok { b with config := some c }
      | none => Except.error GoError.configResolution

/-- `(*WebhookBuilder).Complete`: resolve the config, then register the
webhooks. -/
def Complete (env : Env) (b : WebhookBuilder) (mux : Mux) : RunOut :=
  match loadRestConfig env b with
  | Except.error e => ⟨GoResult.err e, b, mux, []⟩
  | Except.ok b' => registerWebhooks env b' mux

/-! ### String and character lemmas -/

theorem replaceAll_dot_dash (l : GoString) :
    stringsReplaceAll ['.'] ['-'] l = l.map dotDash := by
  show replaceLoop ['.'] ['-'] 0 l = l.map dotDash
  induction l with
  | nil => rfl
  | cons c rest ih =>
    simp only [replaceLoop, beginsWith, Bool.and_true, List.map_cons]
    by_cases hc : c = '.'
    · subst hc
      simp [replaceLoop, dotDash, ih]
    · have : ('.' == c) = false := by
        simpa using fun h => hc h.symm
      simp [this, dotDash, hc, ih]

theorem char_toNat_ofNat (n : Nat) (h : n < 55296) : (Char.ofNat n).toNat = n := by
  have hv : n.isValidChar := Or.inl h
  simp only [Char.ofNat, hv, dite_true, Char.ofNatAux, Char.toNat]
  simp [UInt32.toNat]

theorem lowerChar_eq_self (c : Char) (h : ¬ (65 ≤ c.toNat ∧ c.toNat ≤ 90)) :
    lowerChar c = c := by
  simp [lowerChar, h]

theorem lowerChar_toNat_of_upper (c : Char) (h : 65 ≤ c.toNat ∧ c.toNat ≤ 90) :
    (lowerChar c).toNat = c.toNat + 32 := by
  simp only [lowerChar, h, and_self, if_true]
  exact char_toNat_ofNat _ (by omega)

theorem char_eq_of_toNat_eq (a b : Char) (h : a.toNat = b.toNat) : a = b :=
  Char.eq_of_val_eq (UInt32.ext h)

theorem lowerChar_ne_dash (c : Char) (h : c ≠ '-') : lowerChar c ≠ '-' := by
  by_cases hu : 65 ≤ c.toNat ∧ c.toNat ≤ 90
  · have ht := lowerChar_toNat_of_upper c hu
    intro he
    rw [he] at ht
    have h45 : ('-' : Char).toNat = 45 := rfl
    rw [h45] at ht
    omega
  · rw [lowerChar_eq_self c hu]; exact h

theorem lowerChar_inj_upper (a b : Char) (ha : 65 ≤ a.toNat ∧ a.toNat ≤ 90)
    (hb : 65 ≤ b.toNat ∧ b.toNat ≤ 90) (h : lowerChar a = lowerChar b) : a = b := by
  have ha' := lowerChar_toNat_of_upper a ha
  have hb' := lowerChar_toNat_of_upper b hb
  rw [h] at ha'
  exact char_eq_of_toNat_eq a b (by omega)

theorem dotDash_inj (a b : Char) (ha : a ≠ '-') (hb : b ≠ '-')
    (h : dotDash a = dotDash b) : a = b := by
  unfold dotDash at h
  by_cases h1 : a = '.' <;> by_cases h2 : b = '.'
  · rw [h1, h2]
  · subst h1
    simp only [if_true, h2, if_false] at h
    exact absurd h.symm hb
  · subst h2
    simp only [h1, if_false, if_true] at h
    exact absurd h ha
  · simpa [h1, h2] using h

theorem map_inj_of_forall {f : Char → Char} {P : Char → Prop}
    (hf : ∀ a b, P a → P b → f a = f b → a = b) :
    ∀ (l1 l2 : GoString), (∀ c ∈ l1, P c) → (∀ c ∈ l2, P c) →
      l1.map f = l2.map f → l1 = l2 := by
  intro l1
  induction l1 with
  | nil => intro l2 _ _ h; cases l2 <;> simp_all
  | cons a r1 ih =>
    intro l2 h1 h2 h
    cases l2 with
    | nil => simp at h
    | cons b r2 =>
      simp only [List.map_cons, List.cons.injEq] at h
      have hab := hf a b (h1 a (by simp)) (h2 b (by simp)) h.1
      have := ih r2 (fun c hc => h1 c (by simp [hc])) (fun c hc => h2 c (by simp [hc])) h.2
      simp [hab, this]

/-! ### "Typical Kubernetes-style" identities (for the injectivity claim) -/

/-- Dash-free string: the group/version component contains no `'-'`
(dashes in the group would collide with encoded dots). -/
def noDash (l : GoString) : Bool :=
  l.all (fun c => c != '-')

/-- A char is an ASCII lowercase letter or a digit. -/
def isLowerDigit (c : Char) : Bool :=
  (97 ≤ c.toNat && c.toNat ≤ 122) || (48 ≤ c.toNat && c.toNat ≤ 57)

/-- A char is an ASCII uppercase letter. -/
def isUpperChar (c : Char) : Bool :=
  65 ≤ c.toNat && c.toNat ≤ 90

/-- A typical Kubernetes kind: nonempty, a single leading capital letter and
a lowercase/digit tail (so the kind is recoverable from its lowercasing). -/
def typicalKind : GoString → Bool
  | [] => false
  | c :: rest => isUpperChar c && rest.all isLowerDigit

/-- A typical Kubernetes-style identity: dash-free dotted group, dash-free
version, and a `typicalKind` kind. -/
def typicalGVK (t : GVK) : Bool :=
  noDash t.group && noDash t.version && typicalKind t.kind

theorem lowerString_noDash (k : GoString) (h : ∀ c ∈ k, c ≠ '-') :
    ∀ c ∈ lowerString k, c ≠ '-' := by
  intro c hc
  simp only [lowerString, List.mem_map] at hc
  obtain ⟨a, ha, rfl⟩ := hc
  exact lowerChar_ne_dash a (h a ha)

theorem upper_range (c : Char) (h : isUpperChar c = true) : 65 ≤ c.toNat ∧ c.toNat ≤ 90 := by
  simpa [isUpperChar] using h

theorem lowerChar_of_lowerDigit (c : Char) (h : isLowerDigit c = true) : lowerChar c = c := by
  apply lowerChar_eq_self
  simp only [isLowerDigit, Bool.or_eq_true, Bool.and_eq_true, decide_eq_true_eq] at h
  omega

theorem map_id_of_fixed {f : Char → Char} :
    ∀ (l : GoString), (∀ c ∈ l, f c = c) → l.map f = l := by
  intro l
  induction l with
  | nil => intro _; rfl
  | cons a r ih =>
    intro h
    simp only [List.map_cons, h a (by simp), List.cons.injEq, true_and]
    exact ih (fun c hc => h c (by simp [hc]))

theorem typicalKind_lower_inj (k1 k2 : GoString) (h1 : typicalKind k1 = true)
    (h2 : typicalKind k2 = true) (h : lowerString k1 = lowerString k2) : k1 = k2 := by
  cases k1 with
  | nil => simp [typicalKind] at h1
  | cons a r1 =>
    cases k2 with
    | nil => simp [typicalKind] at h2
    | cons b r2 =>
      simp only [typicalKind, Bool.and_eq_true, List.all_eq_true] at h1 h2
      simp only [lowerString, List.map_cons, List.cons.injEq] at h
      have hab : a = b :=
        lowerChar_inj_upper a b (upper_range a h1.1) (upper_range b h2.1) h.1
      have e1 : r1.map lowerChar = r1 :=
        map_id_of_fixed r1 (fun c hc => lowerChar_of_lowerDigit c (h1.2 c hc))
      have e2 : r2.map lowerChar = r2 :=
        map_id_of_fixed r2 (fun c hc => lowerChar_of_lowerDigit c (h2.2 c hc))
      have hr : r1 = r2 := by rw [← e1, ← e2]; exact h.2
      rw [hab, hr]

theorem noDash_mem (l : GoString) (h : noDash l = true) : ∀ c ∈ l, c ≠ '-' := by
  intro c hc
  simp only [noDash, List.all_eq_true] at h
  simpa using h c hc

/-! ### Parsing the generated paths back into their components -/

theorem takeWhile_nodash_append (A B : GoString) (h : ∀ a ∈ A, a ≠ '-') :
    (A ++ '-' :: B).takeWhile (fun c => c != '-') = A := by
  induction A with
  | nil => simp [List.takeWhile]
  | cons a r ih =>
    have ha : (a != '-') = true := by simpa using h a (by simp)
    simp only [List.cons_append, List.takeWhile_cons, ha, if_true, List.cons.injEq, true_and]
    exact ih (fun c hc => h c (by simp [hc]))

theorem dropWhile_nodash_append (A B : GoString) (h : ∀ a ∈ A, a ≠ '-') :
    (A ++ '-' :: B).dropWhile (fun c => c != '-') = '-' :: B := by
  induction A with
  | nil => simp [List.dropWhile]
  | cons a r ih =>
    have ha : (a != '-') = true := by simpa using h a (by simp)
    simp only [List.cons_append, List.dropWhile_cons, ha, if_true]
    exact ih (fun c hc => h c (by simp [hc]))

theorem typicalKind_noDash (k : GoString) (h : typicalKind k = true) : ∀ c ∈ k, c ≠ '-' := by
  cases k with
  | nil => intro c hc; simp at hc
  | cons a r =>
    simp only [typicalKind, Bool.and_eq_true, List.all_eq_true] at h
    intro c hc
    intro he
    subst he
    rcases List.mem_cons.1 hc with h' | h'
    · have := upper_range _ h.1
      rw [← h'] at this
      have h45 : ('-' : Char).toNat = 45 := rfl
      omega
    · have := h.2 _ h'
      simp only [isLowerDigit, Bool.or_eq_true, Bool.and_eq_true, decide_eq_true_eq] at this
      have h45 : ('-' : Char).toNat = 45 := rfl
      omega

/-- The variable part of both generated paths:
`<encoded group>-<version>-<lowercased kind>`. -/
def pathSuffix (t : GVK) : GoString :=
  t.group.map dotDash ++ ['-'] ++ t.version ++ ['-'] ++ lowerString t.kind

theorem mutatePath_eq_suffix (t : GVK) :
    generateMutatePath t = "/mutate-".toList ++ pathSuffix t := by
  simp [generateMutatePath, pathSuffix, replaceAll_dot_dash, List.append_assoc]

theorem validatePath_eq_suffix (t : GVK) :
    generateValidatePath t = "/validate-".toList ++ pathSuffix t := by
  simp [generateValidatePath, pathSuffix, replaceAll_dot_dash, List.append_assoc]

theorem pathSuffix_inj (t1 t2 : GVK) (h1 : typicalGVK t1 = true) (h2 : typicalGVK t2 = true)
    (h : pathSuffix t1 = pathSuffix t2) : t1 = t2 := by
  obtain ⟨g1, v1, k1⟩ := t1
  obtain ⟨g2, v2, k2⟩ := t2
  simp only [typicalGVK, Bool.and_eq_true] at h1 h2
  have hk1 : ∀ c ∈ (lowerString k1).reverse, c ≠ '-' := by
    intro c hc
    exact lowerString_noDash k1 (typicalKind_noDash k1 h1.2) c (List.mem_reverse.1 hc)
  have hk2 : ∀ c ∈ (lowerString k2).reverse, c ≠ '-' := by
    intro c hc
    exact lowerString_noDash k2 (typicalKind_noDash k2 h2.2) c (List.mem_reverse.1 hc)
  have hv1 : ∀ c ∈ v1.reverse, c ≠ '-' := by
    intro c hc; exact noDash_mem v1 h1.1.2 c (List.mem_reverse.1 hc)
  have hv2 : ∀ c ∈ v2.reverse, c ≠ '-' := by
    intro c hc; exact noDash_mem v2 h2.1.2 c (List.mem_reverse.1 hc)
  have hrev := congrArg List.reverse h
  simp only [pathSuffix, List.reverse_append, List.reverse_cons, List.reverse_nil,
    List.nil_append, List.singleton_append, List.cons_append, List.append_assoc] at hrev
  -- hrev : (lowerString k1).reverse ++ '-' :: (v1.reverse ++ '-' :: (g1.map dotDash).reverse)
  --      = (lowerString k2).reverse ++ '-' :: (v2.reverse ++ '-' :: (g2.map dotDash).reverse)
  have htake := congrArg (List.takeWhile (fun c => c != '-')) hrev
  rw [takeWhile_nodash_append _ _ hk1, takeWhile_nodash_append _ _ hk2] at htake
  have hk : k1 = k2 := by
    apply typicalKind_lower_inj k1 k2 h1.2 h2.2
    exact List.reverse_injective htake
  have hdrop := congrArg (List.dropWhile (fun c => c != '-')) hrev
  rw [dropWhile_nodash_append _ _ hk1, dropWhile_nodash_append _ _ hk2] at hdrop
  have hrest := List.cons.inj hdrop |>.2
  have htake2 := congrArg (List.takeWhile (fun c => c != '-')) hrest
  rw [takeWhile_nodash_append _ _ hv1, takeWhile_nodash_append _ _ hv2] at htake2
  have hv : v1 = v2 := List.reverse_injective htake2
  have hdrop2 := congrArg (List.dropWhile (fun c => c != '-')) hrest
  rw [dropWhile_nodash_append _ _ hv1, dropWhile_nodash_append _ _ hv2] at hdrop2
  have hge : (g1.map dotDash).reverse = (g2.map dotDash).reverse := List.cons.inj hdrop2 |>.2
  have hg : g1 = g2 := by
    apply map_inj_of_forall dotDash_inj g1 g2 (noDash_mem g1 h1.1.1) (noDash_mem g2 h2.1.1)
    exact List.reverse_injective hge
  rw [hg, hv, hk]

theorem mutatePath_inj (t1 t2 : GVK) (h1 : typicalGVK t1 = true) (h2 : typicalGVK t2 = true)
    (h : generateMutatePath t1 = generateMutatePath t2) : t1 = t2 := by
  rw [mutatePath_eq_suffix, mutatePath_eq_suffix] at h
  exact pathSuffix_inj t1 t2 h1 h2 (List.append_cancel_left h)

theorem validatePath_inj (t1 t2 : GVK) (h1 : typicalGVK t1 = true) (h2 : typicalGVK t2 = true)
    (h : generateValidatePath t1 = generateValidatePath t2) : t1 = t2 := by
  rw [validatePath_eq_suffix, validatePath_eq_suffix] at h
  exact pathSuffix_inj t1 t2 h1 h2 (List.append_cancel_left h)

/-! ### Head shape of the generated paths -/

theorem mutatePath_cons (t : GVK) :
    generateMutatePath t = '/' :: 'm' :: ("utate-".toList ++ pathSuffix t) := by
  rw [mutatePath_eq_suffix]; rfl

theorem validatePath_cons (t : GVK) :
    generateValidatePath t = '/' :: 'v' :: ("alidate-".toList ++ pathSuffix t) := by
  rw [validatePath_eq_suffix]; rfl

theorem mutatePath_ne_nil (t : GVK) : generateMutatePath t ≠ [] := by
  rw [mutatePath_cons]; simp

theorem validatePath_ne_nil (t : GVK) : generateValidatePath t ≠ [] := by
  rw [validatePath_cons]; simp

theorem mutatePath_ne_validatePath (t t' : GVK) :
    generateMutatePath t ≠ generateValidatePath t' := by
  rw [mutatePath_cons, validatePath_cons]
  intro h
  injection h with h1 h2
  injection h2 with h3 _
  exact absurd h3 (by decide)

theorem patternMatches_mutate_validate (t t' : GVK) :
    patternMatches (generateMutatePath t) (generateValidatePath t') = false := by
  rw [mutatePath_cons, validatePath_cons]
  show (if _ then beginsWith _ _ else _ == _) = false
  split
  · simp [beginsWith]
  · rw [beq_eq_false_iff_ne]
    intro h
    injection h with h1 h2
    injection h2 with h3 _
    exact absurd h3 (by decide)

/-! ### Lemmas about the server's path table -/

theorem beginsWith_le (p : GoString) :
    ∀ s, beginsWith p s = true → p.length ≤ s.length := by
  induction p with
  | nil => intro s _; simp
  | cons c ps ih =>
    intro s h
    cases s with
    | nil => simp [beginsWith] at h
    | cons d ds =>
      simp only [beginsWith, Bool.and_eq_true] at h
      simpa using ih ds h.2

theorem beginsWith_eq_of_length (p : GoString) :
    ∀ s, beginsWith p s = true → p.length = s.length → p = s := by
  induction p with
  | nil => intro s _ h; cases s <;> simp_all
  | cons c ps ih =>
    intro s h hl
    cases s with
    | nil => simp [beginsWith] at h
    | cons d ds =>
      simp only [beginsWith, Bool.and_eq_true, beq_iff_eq] at h
      simp only [List.length_cons, Nat.succ.injEq] at hl
      rw [h.1, ih ds h.2 hl]

theorem beginsWith_self (p : GoString) : beginsWith p p = true := by
  induction p with
  | nil => rfl
  | cons c ps ih => simp [beginsWith, ih]

theorem patternMatches_self (p : GoString) (h : p ≠ []) : patternMatches p p = true := by
  cases p with
  | nil => exact absurd rfl h
  | cons c ps =>
    show (if _ then beginsWith _ _ else _ == _) = true
    split
    · exact beginsWith_self _
    · exact beq_self_eq_true _

theorem patternMatches_le (q p : GoString) (h : patternMatches q p = true) :
    q.length ≤ p.length := by
  cases q with
  | nil => simp [patternMatches] at h
  | cons c qs =>
    revert h
    show (if _ then beginsWith _ _ else _ == _) = true → _
    split
    · exact beginsWith_le _ _
    · intro h; rw [eq_of_beq h]

theorem patternMatches_eq_of_length (q p : GoString) (h : patternMatches q p = true)
    (hl : q.length = p.length) : q = p := by
  cases q with
  | nil => simp [patternMatches] at h
  | cons c qs =>
    revert h
    show (if _ then beginsWith _ _ else _ == _) = true → _
    split
    · intro h; exact beginsWith_eq_of_length _ _ h hl
    · exact eq_of_beq

theorem better_some (path : GoString) (f : GoString × Handler)
    (o : Option (GoString × Handler)) (e : GoString × Handler)
    (h : better path f o = some e) :
    (e = f ∧ patternMatches f.1 path = true) ∨ o = some e := by
  cases o with
  | none =>
    simp only [better] at h
    split at h
    · injection h with h; subst h; exact Or.inl ⟨rfl, by assumption⟩
    · cases h
  | some b =>
    simp only [better] at h
    split at h
    · injection h with h
      subst h
      rename_i hc
      simp only [Bool.and_eq_true, decide_eq_true_eq] at hc
      exact Or.inl ⟨rfl, hc.1⟩
    · exact Or.inr h

theorem better_none (path : GoString) (f : GoString × Handler)
    (o : Option (GoString × Handler)) (h : better path f o = none) :
    patternMatches f.1 path = false ∧ o = none := by
  cases o with
  | none =>
    simp only [better] at h
    split at h
    · cases h
    · rename_i hc
      exact ⟨Bool.not_eq_true _ ▸ by simpa using hc, rfl⟩
  | some b =>
    simp only [better] at h
    split at h <;> cases h

theorem bestMatch_some (path : GoString) :
    ∀ (m : Mux) (e : GoString × Handler), bestMatch path m = some e →
      e ∈ m ∧ patternMatches e.1 path = true := by
  intro m
  induction m with
  | nil => intro e h; cases h
  | cons f rest ih =>
    intro e h
    rcases better_some path f _ e h with ⟨rfl, hm⟩ | hrec
    · exact ⟨by simp, hm⟩
    · have := ih e hrec
      exact ⟨List.mem_cons_of_mem _ this.1, this.2⟩

theorem bestMatch_none (path : GoString) :
    ∀ (m : Mux), bestMatch path m = none →
      ∀ e ∈ m, patternMatches e.1 path = false := by
  intro m
  induction m with
  | nil => intro _ e he; simp at he
  | cons f rest ih =>
    intro h e he
    have hb := better_none path f _ h
    rcases List.mem_cons.1 he with rfl | hm
    · exact hb.1
    · exact ih hb.2 e hm

theorem bestMatch_maximal (path : GoString) :
    ∀ (m : Mux) (e : GoString × Handler), bestMatch path m = some e →
      ∀ e' ∈ m, patternMatches e'.1 path = true → e'.1.length ≤ e.1.length := by
  intro m
  induction m with
  | nil => intro e h; cases h
  | cons f rest ih =>
    intro e h e' he' hm'
    rcases List.mem_cons.1 he' with rfl | hmem
    · -- e' is the head entry f
      cases o : bestMatch path rest with
      | none =>
        rw [bestMatch, o] at h
        simp only [better, hm', if_true] at h
        injection h with h
        subst h
        exact Nat.le_refl _
      | some b =>
        rw [bestMatch, o] at h
        simp only [better, hm', Bool.true_and] at h
        split at h
        · injection h with h; subst h; exact Nat.le_refl _
        · injection h with h
          subst h
          rename_i hc
          simp only [decide_eq_true_eq] at hc
          omega
    · -- e' is in the tail
      cases o : bestMatch path rest with
      | none => exact absurd hm' (by simp [bestMatch_none path rest o e' hmem])
      | some b =>
        have hble := ih b o e' hmem hm'
        rw [bestMatch, o] at h
        simp only [better] at h
        split at h
        · injection h with h
          subst h
          rename_i hc
          simp only [Bool.and_eq_true, decide_eq_true_eq] at hc
          omega
        · injection h with h
          subst h
          exact hble

/-! ### The duplicate-registration check -/

theorem isAlreadyHandled_iff (mux : Mux) (path : GoString) :
    isAlreadyHandled mux path = true ↔
      ((muxLookup mux path).1.isSome = true ∧ (muxLookup mux path).2 = path) := by
  simp only [isAlreadyHandled, Bool.and_eq_true, beq_iff_eq]
  exact ⟨fun h => ⟨h.2, h.1⟩, fun h => ⟨h.2, h.1⟩⟩

theorem isAlreadyHandled_of_mem (mux : Mux) (p : GoString) (hd : Handler)
    (hmem : (p, hd) ∈ mux) (hp : p ≠ []) : isAlreadyHandled mux p = true := by
  have hself : patternMatches p p = true := patternMatches_self p hp
  cases hb : bestMatch p mux with
  | none => exact absurd hself (by simp [bestMatch_none p mux hb (p, hd) hmem])
  | some e =>
    have hs := bestMatch_some p mux e hb
    have hmax := bestMatch_maximal p mux e hb (p, hd) hmem hself
    have hle := patternMatches_le e.1 p hs.2
    have : e.1 = p := patternMatches_eq_of_length e.1 p hs.2 (by simpa using Nat.le_antisymm hle hmax)
    simp [isAlreadyHandled, muxLookup, hb, this]

theorem mem_of_isAlreadyHandled (mux : Mux) (p : GoString)
    (h : isAlreadyHandled mux p = true) (hp : p ≠ []) : ∃ hd, (p, hd) ∈ mux := by
  revert h
  unfold isAlreadyHandled muxLookup
  cases hb : bestMatch p mux with
  | none =>
    intro h
    simp only [Bool.and_eq_true, beq_iff_eq] at h
    exact absurd h.1.symm hp
  | some e =>
    intro h
    simp only [Bool.and_eq_true, beq_iff_eq] at h
    have hs := bestMatch_some p mux e hb
    refine ⟨e.2, ?_⟩
    have : (e.1, e.2) = (p, e.2) := by rw [h.1]
    rw [← this]
    exact hs.1

theorem isAlreadyHandled_mono (mux mux' : Mux) (p : GoString) (hsub : mux ⊆ mux')
    (hp : p ≠ []) (h : isAlreadyHandled mux p = true) : isAlreadyHandled mux' p = true := by
  obtain ⟨hd, hmem⟩ := mem_of_isAlreadyHandled mux p h hp
  exact isAlreadyHandled_of_mem mux' p hd (hsub hmem) hp

theorem bestMatch_cons_nomatch (mux : Mux) (q path : GoString) (hd : Handler)
    (h : patternMatches q path = false) :
    bestMatch path ((q, hd) :: mux) = bestMatch path mux := by
  show better path (q, hd) (bestMatch path mux) = bestMatch path mux
  cases bestMatch path mux <;> simp [better, h]

theorem isAlreadyHandled_register_nomatch (mux : Mux) (q path : GoString) (hd : Handler)
    (h : patternMatches q path = false) :
    isAlreadyHandled (muxRegister mux q hd) path = isAlreadyHandled mux path := by
  simp [isAlreadyHandled, muxLookup, muxRegister, bestMatch_cons_nomatch mux q path hd h]

/-! ### Registration steps: growth and no-op conditions -/

theorem registerDefaulting_subset (b : WebhookBuilder) (mux : Mux) :
    mux ⊆ (registerDefaultingWebhook b mux).1 := by
  unfold registerDefaultingWebhook
  cases b.apiType with
  | none => exact fun _ h => h
  | some t =>
    by_cases hd : t.isDefaulter = true
    · simp only [hd, if_true]
      cases DefaultingWebhookFor t with
      | none => exact fun _ h => h
      | some mwh =>
        by_cases ha : isAlreadyHandled mux (generateMutatePath b.gvk) = true
        · simp [ha]
        · simp only [Bool.not_eq_true] at ha
          simp [ha, muxRegister]
    · simp only [Bool.not_eq_true] at hd
      simp [hd]

theorem registerValidating_subset (b : WebhookBuilder) (mux : Mux) :
    mux ⊆ (registerValidatingWebhook b mux).1 := by
  unfold registerValidatingWebhook
  cases b.apiType with
  | none => exact fun _ h => h
  | some t =>
    by_cases hd : t.isValidator = true
    · simp only [hd, if_true]
      cases ValidatingWebhookFor t with
      | none => exact fun _ h => h
      | some vwh =>
        by_cases ha : isAlreadyHandled mux (generateValidatePath b.gvk) = true
        · simp [ha]
        · simp only [Bool.not_eq_true] at ha
          simp [ha, muxRegister]
    · simp only [Bool.not_eq_true] at hd
      simp [hd]

/-- After the defaulting step has run, nothing is left for it to do: either
the capability is absent, or the handler was null, or the mutate path is now
handled. -/
def defaultingDone (b : WebhookBuilder) (mux : Mux) : Prop :=
  ∀ t, b.apiType = some t →
    t.isDefaulter = false ∨ DefaultingWebhookFor t = none ∨
      isAlreadyHandled mux (generateMutatePath b.gvk) = true

/-- Validating counterpart of `defaultingDone`. -/
def validatingDone (b : WebhookBuilder) (mux : Mux) : Prop :=
  ∀ t, b.apiType = some t →
    t.isValidator = false ∨ ValidatingWebhookFor t = none ∨
      isAlreadyHandled mux (generateValidatePath b.gvk) = true

theorem registerDefaulting_done (b : WebhookBuilder) (mux : Mux) :
    defaultingDone b (registerDefaultingWebhook b mux).1 := by
  intro t ht
  by_cases hd : t.isDefaulter = true
  · cases hw : DefaultingWebhookFor t with
    | none => exact Or.inr (Or.inl rfl)
    | some mwh =>
      by_cases ha : isAlreadyHandled mux (generateMutatePath b.gvk) = true
      · refine Or.inr (Or.inr ?_)
        simp [registerDefaultingWebhook, ht, hd, hw, ha]
      · simp only [Bool.not_eq_true] at ha
        refine Or.inr (Or.inr ?_)
        have hres : (registerDefaultingWebhook b mux).1 =
            muxRegister mux (generateMutatePath b.gvk) mwh := by
          simp [registerDefaultingWebhook, ht, hd, hw, ha]
        rw [hres]
        exact isAlreadyHandled_of_mem _ _ mwh (by simp [muxRegister]) (mutatePath_ne_nil _)
  · simp only [Bool.not_eq_true] at hd
    exact Or.inl hd

theorem registerValidating_done (b : WebhookBuilder) (mux : Mux) :
    validatingDone b (registerValidatingWebhook b mux).1 := by
  intro t ht
  by_cases hd : t.isValidator = true
  · cases hw : ValidatingWebhookFor t with
    | none => exact Or.inr (Or.inl rfl)
    | some vwh =>
      by_cases ha : isAlreadyHandled mux (generateValidatePath b.gvk) = true
      · refine Or.inr (Or.inr ?_)
        simp [registerValidatingWebhook, ht, hd, hw, ha]
      · simp only [Bool.not_eq_true] at ha
        refine Or.inr (Or.inr ?_)
        have hres : (registerValidatingWebhook b mux).1 =
            muxRegister mux (generateValidatePath b.gvk) vwh := by
          simp [registerValidatingWebhook, ht, hd, hw, ha]
        rw [hres]
        exact isAlreadyHandled_of_mem _ _ vwh (by simp [muxRegister]) (validatePath_ne_nil _)
  · simp only [Bool.not_eq_true] at hd
    exact Or.inl hd

theorem defaultingDone_mono (b : WebhookBuilder) (mux mux' : Mux) (hsub : mux ⊆ mux')
    (h : defaultingDone b mux) : defaultingDone b mux' := by
  intro t ht
  rcases h t ht with h' | h' | h'
  · exact Or.inl h'
  · exact Or.inr (Or.inl h')
  · exact Or.inr (Or.inr (isAlreadyHandled_mono mux mux' _ hsub (mutatePath_ne_nil _) h'))

theorem validatingDone_mono (b : WebhookBuilder) (mux mux' : Mux) (hsub : mux ⊆ mux')
    (h : validatingDone b mux) : validatingDone b mux' := by
  intro t ht
  rcases h t ht with h' | h' | h'
  · exact Or.inl h'
  · exact Or.inr (Or.inl h')
  · exact Or.inr (Or.inr (isAlreadyHandled_mono mux mux' _ hsub (validatePath_ne_nil _) h'))

theorem registerDefaulting_noop (b : WebhookBuilder) (mux : Mux)
    (h : defaultingDone b mux) : registerDefaultingWebhook b mux = (mux, []) := by
  cases hA : b.apiType with
  | none => simp [registerDefaultingWebhook, hA]
  | some t =>
    by_cases hd : t.isDefaulter = true
    · cases hw : DefaultingWebhookFor t with
      | none => simp [registerDefaultingWebhook, hA, hd, hw]
      | some mwh =>
        rcases h t hA with ht | ht | ht
        · rw [hd] at ht; cases ht
        · rw [hw] at ht; cases ht
        · simp [registerDefaultingWebhook, hA, hd, hw, ht]
    · simp only [Bool.not_eq_true] at hd
      simp [registerDefaultingWebhook, hA, hd]

theorem registerValidating_noop (b : WebhookBuilder) (mux : Mux)
    (h : validatingDone b mux) : registerValidatingWebhook b mux = (mux, []) := by
  cases hA : b.apiType with
  | none => simp [registerValidatingWebhook, hA]
  | some t =>
    by_cases hd : t.isValidator = true
    · cases hw : ValidatingWebhookFor t with
      | none => simp [registerValidatingWebhook, hA, hd, hw]
      | some vwh =>
        rcases h t hA with ht | ht | ht
        · rw [hd] at ht; cases ht
        · rw [hw] at ht; cases ht
        · simp [registerValidatingWebhook, hA, hd, hw, ht]
    · simp only [Bool.not_eq_true] at hd
      simp [registerValidatingWebhook, hA, hd]

/-! ### Reduction lemmas for whole runs of Complete -/

theorem GVKForObject_error (t : Option ApiType) (s : Nat → Option GVK) (e : GoError)
    (h : GVKForObject t s = Except.error e) : ∃ id, e = GoError.typeResolution id := by
  cases t with
  | none =>
    simp only [GVKForObject, Except.error.injEq] at h
    exact ⟨0, h.symm⟩
  | some a =>
    cases hs : s a.id with
    | some gvk => simp [GVKForObject, hs] at h
    | none =>
      simp only [GVKForObject, hs, Except.error.injEq] at h
      exact ⟨a.id, h.symm⟩

theorem registerWebhooks_no_configError (env : Env) (b : WebhookBuilder) (mux : Mux) :
    (registerWebhooks env b mux).res ≠ GoResult.err GoError.configResolution := by
  cases hM : b.mgr with
  | none => simp [registerWebhooks, hM]
  | some m =>
    cases hg : GVKForObject b.apiType m.scheme with
    | error e =>
      obtain ⟨id, rfl⟩ := GVKForObject_error _ _ _ hg
      simp [registerWebhooks, hM, hg]
    | ok gvk => simp [registerWebhooks, hM, hg]

theorem loadRestConfig_mgr (env : Env) (b : WebhookBuilder) (m : Manager)
    (hm : b.mgr = some m) :
    ∃ bc, loadRestConfig env b = Except.ok bc ∧ bc.apiType = b.apiType ∧
      bc.mgr = b.mgr ∧ bc.gvk = b.gvk ∧ bc.config.isSome = true := by
  cases hC : b.config with
  | some c => exact ⟨b, by simp [loadRestConfig, hC], rfl, rfl, rfl, by simp [hC]⟩
  | none =>
    refine ⟨{ b with config := some m.config }, ?_, rfl, rfl, rfl, rfl⟩
    simp [loadRestConfig, hC, hm]

theorem Complete_eq_registerWebhooks (env : Env) (b : WebhookBuilder) (mux : Mux)
    (m : Manager) (hm : b.mgr = some m) :
    ∃ bc, Complete env b mux = registerWebhooks env bc mux ∧ bc.apiType = b.apiType ∧
      bc.mgr = b.mgr ∧ bc.gvk = b.gvk ∧ bc.config.isSome = true := by
  obtain ⟨bc, hload, h1, h2, h3, h4⟩ := loadRestConfig_mgr env b m hm
  exact ⟨bc, by simp [Complete, hload], h1, h2, h3, h4⟩

theorem registerWebhooks_ok (env : Env) (bc : WebhookBuilder) (mux : Mux) (m : Manager)
    (t : ApiType) (gvk : GVK) (hm : bc.mgr = some m) (ht : bc.apiType = some t)
    (hs : m.scheme t.id = some gvk) :
    registerWebhooks env bc mux =
      ⟨GoResult.ok, { bc with gvk := gvk },
       (registerValidatingWebhook { bc with gvk := gvk }
         (registerDefaultingWebhook { bc with gvk := gvk } mux).1).1,
       (registerDefaultingWebhook { bc with gvk := gvk } mux).2 ++
         (registerValidatingWebhook { bc with gvk := gvk }
           (registerDefaultingWebhook { bc with gvk := gvk } mux).1).2 ++
         (if env.checkConvertibility t.id then []
          else [LogEntry.conversionCheckFailed gvk])⟩ := by
  simp [registerWebhooks, hm, GVKForObject, ht, hs]

/-! ### The claims -/

/-- A GVK used as the concrete example in the claims:
group `apps.example.com`, version `v1`, kind `Widget`. -/
def widgetGVK : GVK :=
  ⟨"apps.example.com".toList, "v1".toList, "Widget".toList⟩

/-- C1: for every GroupVersionKind triple, the mutating registration path is
the string "/mutate-" followed by the group with every dot replaced by a
dash, a dash, the version unchanged, a dash, and the kind lowercased; the
validating path is identical except its leading piece is "/validate-"; the
dot-to-dash replacement applies to all occurrences of '.' and only to the
group segment. -/
theorem mutate_validate_path_formula (g v k : GoString) :
    generateMutatePath ⟨g, v, k⟩ =
      "/mutate-".toList ++ g.map dotDash ++ ['-'] ++ v ++ ['-'] ++ k.map lowerChar ∧
    generateValidatePath ⟨g, v, k⟩ =
      "/validate-".toList ++ g.map dotDash ++ ['-'] ++ v ++ ['-'] ++ k.map lowerChar := by
  constructor <;>
    simp [generateMutatePath, generateValidatePath, replaceAll_dot_dash, lowerString]

/-- C7: for every GVK triple, the mutate and validate paths are distinct
from each other, and each is a deterministic function of the triple alone. -/
theorem paths_distinct_deterministic (t1 t2 : GVK) :
    generateMutatePath t1 ≠ generateValidatePath t1 ∧
    (t1 = t2 → generateMutatePath t1 = generateMutatePath t2 ∧
      generateValidatePath t1 = generateValidatePath t2) :=
  ⟨mutatePath_ne_validatePath t1 t1, fun h => by rw [h]; exact ⟨rfl, rfl⟩⟩

/-- Witness for C7 at the concrete widget GVK. -/
theorem paths_distinct_deterministic_witness :
    generateMutatePath widgetGVK ≠ generateValidatePath widgetGVK ∧
    generateMutatePath widgetGVK = generateMutatePath widgetGVK :=
  ⟨(paths_distinct_deterministic widgetGVK widgetGVK).1,
   ((paths_distinct_deterministic widgetGVK widgetGVK).2 rfl).1⟩

/-- C8: path generation is injective on typical Kubernetes-style identities
(dash-free dotted group, dash-free version, capitalized kind), and the
example group `apps.example.com`, version `v1`, kind `Widget` yields the
mutate path `/mutate-apps-example-com-v1-widget` and the validate path
`/validate-apps-example-com-v1-widget`. -/
theorem path_injective_typical :
    (∀ t1 t2 : GVK, typicalGVK t1 = true → typicalGVK t2 = true →
        generateMutatePath t1 = generateMutatePath t2 → t1 = t2) ∧
    (∀ t1 t2 : GVK, typicalGVK t1 = true → typicalGVK t2 = true →
        generateValidatePath t1 = generateValidatePath t2 → t1 = t2) ∧
    generateMutatePath widgetGVK = "/mutate-apps-example-com-v1-widget".toList ∧
    generateValidatePath widgetGVK = "/validate-apps-example-com-v1-widget".toList :=
  ⟨mutatePath_inj, validatePath_inj, by decide, by decide⟩

/-- Witness for C8: the widget GVK is typical and the injectivity theorem
applies to it. -/
theorem path_injective_typical_witness :
    typicalGVK widgetGVK = true ∧ widgetGVK = widgetGVK :=
  ⟨by decide, path_injective_typical.1 widgetGVK widgetGVK (by decide) (by decide) rfl⟩

/-- C2: `Complete` resolves the connection config with this priority: an
explicit config is used unchanged; else a bound manager's config is taken;
else the ambient loader is consulted.  It returns the config-resolution
error exactly when all three sources fail, and then it returns before any
registry lookup or registration: builder, path table and log are untouched. -/
theorem complete_config_resolution_order (env : Env) (b : WebhookBuilder) (mux : Mux) :
    (∀ c, b.config = some c → loadRestConfig env b = Except.ok b) ∧
    (∀ m, b.config = none → b.mgr = some m →
        loadRestConfig env b = Except.ok { b with config := some m.config }) ∧
    (∀ c, b.config = none → b.mgr = none → env.ambientConfig = some c →
        loadRestConfig env b = Except.ok { b with config := some c }) ∧
    ((Complete env b mux).res = GoResult.err GoError.configResolution ↔
        b.config = none ∧ b.mgr = none ∧ env.ambientConfig = none) ∧
    (b.config = none → b.mgr = none → env.ambientConfig = none →
        Complete env b mux = ⟨GoResult.err GoError.configResolution, b, mux, []⟩) := by
  refine ⟨?_, ?_, ?_, ⟨?_, ?_⟩, ?_⟩
  · intro c hc; simp [loadRestConfig, hc]
  · intro m h0 hm; simp [loadRestConfig, h0, hm]
  · intro c h0 hm ha; simp [loadRestConfig, h0, hm, ha]
  · intro h
    cases hC : b.config with
    | some c =>
      rw [show Complete env b mux = registerWebhooks env b mux by
        simp [Complete, loadRestConfig, hC]] at h
      exact absurd h (registerWebhooks_no_configError env b mux)
    | none =>
      cases hM : b.mgr with
      | some m =>
        rw [show Complete env b mux = registerWebhooks env { b with config := some m.config } mux by
          simp [Complete, loadRestConfig, hC, hM]] at h
        exact absurd h (registerWebhooks_no_configError env _ mux)
      | none =>
        cases hA : env.ambientConfig with
        | some c =>
          rw [show Complete env b mux = registerWebhooks env { b with config := some c } mux by
            simp [Complete, loadRestConfig, hC, hM, hA]] at h
          exact absurd h (registerWebhooks_no_configError env _ mux)
        | none => exact ⟨by simp [hC], by simp [hM], by simp [hA]⟩
  · rintro ⟨h1, h2, h3⟩
    simp [Complete, loadRestConfig, h1, h2, h3]
  · intro h1 h2 h3
    simp [Complete, loadRestConfig, h1, h2, h3]

/-- Witness for C2: no config anywhere gives the config-resolution error
with nothing registered. -/
theorem complete_config_resolution_order_witness :
    Complete ⟨none, fun _ => true⟩ ⟨none, GVK.empty, none, none⟩ [] =
      ⟨GoResult.err GoError.configResolution, ⟨none, GVK.empty, none, none⟩, [], []⟩ :=
  (complete_config_resolution_order ⟨none, fun _ => true⟩
    ⟨none, GVK.empty, none, none⟩ []).2.2.2.2 rfl rfl rfl

/-- C3: for a target type unknown to the manager's scheme, `Complete`
returns the type-resolution error from the registry lookup and registers
zero handlers (table and log unchanged). -/
theorem complete_unknown_type (env : Env) (b : WebhookBuilder) (mux : Mux)
    (m : Manager) (t : ApiType) (hm : b.mgr = some m) (ht : b.apiType = some t)
    (hs : m.scheme t.id = none) :
    (Complete env b mux).res = GoResult.err (GoError.typeResolution t.id) ∧
    (Complete env b mux).mux = mux ∧ (Complete env b mux).log = [] := by
  obtain ⟨bc, heq, hA, hM, _, _⟩ := Complete_eq_registerWebhooks env b mux m hm
  rw [heq]
  rw [hm] at hM
  rw [ht] at hA
  simp [registerWebhooks, hM, GVKForObject, hA, hs]

/-- Witness for C3 at a concrete manager whose scheme knows no type. -/
theorem complete_unknown_type_witness :
    (Complete ⟨none, fun _ => true⟩
      ⟨some ⟨7, true, true, false, false⟩, GVK.empty, some ⟨⟨0⟩, fun _ => none⟩, none⟩ []).res =
      GoResult.err (GoError.typeResolution 7) :=
  (complete_unknown_type ⟨none, fun _ => true⟩
    ⟨some ⟨7, true, true, false, false⟩, GVK.empty, some ⟨⟨0⟩, fun _ => none⟩, none⟩ []
    ⟨⟨0⟩, fun _ => none⟩ ⟨7, true, true, false, false⟩ rfl rfl rfl).1

/-- C4: when config and identity resolution succeed, the outcome of the
conversion-compatibility check does not affect `Complete`'s result: the
returned value is success and the path table is the same whatever the
checker says; a failing check is only logged, with the resolved GVK. -/
theorem conversion_check_nonfatal (env : Env) (f : Nat → Bool) (b : WebhookBuilder)
    (mux : Mux) (m : Manager) (t : ApiType) (gvk : GVK)
    (hm : b.mgr = some m) (ht : b.apiType = some t) (hs : m.scheme t.id = some gvk) :
    (Complete env b mux).res = GoResult.ok ∧
    (Complete { env with checkConvertibility := f } b mux).res = GoResult.ok ∧
    (Complete { env with checkConvertibility := f } b mux).mux = (Complete env b mux).mux ∧
    (env.checkConvertibility t.id = false →
      LogEntry.conversionCheckFailed gvk ∈ (Complete env b mux).log) := by
  obtain ⟨bc, hload, hA, hM, _, _⟩ := loadRestConfig_mgr env b m hm
  have henv : loadRestConfig { env with checkConvertibility := f } b = loadRestConfig env b := rfl
  have heq : Complete env b mux = registerWebhooks env bc mux := by
    simp [Complete, hload]
  have heq' : Complete { env with checkConvertibility := f } b mux =
      registerWebhooks { env with checkConvertibility := f } bc mux := by
    simp [Complete, henv, hload]
  rw [hm] at hM
  rw [ht] at hA
  rw [heq, heq']
  rw [registerWebhooks_ok env bc mux m t gvk hM hA hs,
    registerWebhooks_ok { env with checkConvertibility := f } bc mux m t gvk hM hA hs]
  refine ⟨rfl, rfl, rfl, ?_⟩
  intro hc
  simp [hc]

/-- Witness for C4: a type with both capabilities and a failing
convertibility check still completes successfully. -/
theorem conversion_check_nonfatal_witness :
    (Complete ⟨none, fun _ => false⟩
      ⟨some ⟨7, true, true, false, false⟩, GVK.empty,
        some ⟨⟨0⟩, fun _ => some widgetGVK⟩, none⟩ []).res = GoResult.ok ∧
    LogEntry.conversionCheckFailed widgetGVK ∈
      (Complete ⟨none, fun _ => false⟩
        ⟨some ⟨7, true, true, false, false⟩, GVK.empty,
          some ⟨⟨0⟩, fun _ => some widgetGVK⟩, none⟩ []).log := by
  have h := conversion_check_nonfatal ⟨none, fun _ => false⟩ (fun _ => false)
    ⟨some ⟨7, true, true, false, false⟩, GVK.empty,
      some ⟨⟨0⟩, fun _ => some widgetGVK⟩, none⟩ []
    ⟨⟨0⟩, fun _ => some widgetGVK⟩ ⟨7, true, true, false, false⟩ widgetGVK rfl rfl rfl
  exact ⟨h.1, h.2.2.2 rfl⟩

/-- C9: when no explicit config is set and no manager is bound but the
ambient loader succeeds, `Complete` does not return success: it panics
dereferencing the nil manager in `registerWebhooks` (`mgr.GetScheme()`), so
success always requires a bound manager. -/
theorem ambient_config_nil_manager_panics (env : Env) (b : WebhookBuilder)
    (mux : Mux) (c : RestConfig) :
    (b.config = none → b.mgr = none → env.ambientConfig = some c →
      Complete env b mux = ⟨GoResult.panicked, { b with config := some c }, mux, []⟩) ∧
    ((Complete env b mux).res = GoResult.ok → b.mgr ≠ none) := by
  constructor
  · intro h1 h2 h3
    simp [Complete, loadRestConfig, registerWebhooks, h1, h2, h3]
  · intro hok hM
    cases hC : b.config with
    | some cc =>
      rw [show Complete env b mux = registerWebhooks env b mux by
        simp [Complete, loadRestConfig, hC]] at hok
      simp [registerWebhooks, hM] at hok
    | none =>
      cases hA : env.ambientConfig with
      | some cc =>
        rw [show Complete env b mux = registerWebhooks env { b with config := some cc } mux by
          simp [Complete, loadRestConfig, hC, hM, hA]] at hok
        simp [registerWebhooks, hM] at hok
      | none =>
        rw [show Complete env b mux = ⟨GoResult.err GoError.configResolution, b, mux, []⟩ by
          simp [Complete, loadRestConfig, hC, hM, hA]] at hok
        cases hok

/-- Witness for C9: ambient config present, manager absent: the run panics. -/
theorem ambient_config_nil_manager_panics_witness :
    Complete ⟨some ⟨3⟩, fun _ => true⟩ ⟨none, GVK.empty, none, none⟩ [] =
      ⟨GoResult.panicked, ⟨none, GVK.empty, none, some ⟨3⟩⟩, [], []⟩ :=
  (ambient_config_nil_manager_panics ⟨some ⟨3⟩, fun _ => true⟩
    ⟨none, GVK.empty, none, none⟩ [] ⟨3⟩).1 rfl rfl rfl

/-- C5: a registration attempt is skipped, silently and without error,
exactly when the server's table returns a handler for the computed path and
the matched pattern equals the requested path; a prefix match alone does not
count, and when the check is negative the handler is registered at the
path. -/
theorem duplicate_registration_check (mux : Mux) (path : GoString)
    (b : WebhookBuilder) (t : ApiType) :
    (isAlreadyHandled mux path = true ↔
      ((muxLookup mux path).1.isSome = true ∧ (muxLookup mux path).2 = path)) ∧
    ((muxLookup mux path).2 ≠ path → isAlreadyHandled mux path = false) ∧
    (b.apiType = some t → t.isDefaulter = true → t.defaultingWebhookNil = false →
      (isAlreadyHandled mux (generateMutatePath b.gvk) = true →
        registerDefaultingWebhook b mux = (mux, [])) ∧
      (isAlreadyHandled mux (generateMutatePath b.gvk) = false →
        registerDefaultingWebhook b mux =
          (muxRegister mux (generateMutatePath b.gvk) (Handler.mutating t.id),
           [LogEntry.registeringMutating b.gvk (generateMutatePath b.gvk)]))) ∧
    (b.apiType = some t → t.isValidator = true → t.validatingWebhookNil = false →
      (isAlreadyHandled mux (generateValidatePath b.gvk) = true →
        registerValidatingWebhook b mux = (mux, [])) ∧
      (isAlreadyHandled mux (generateValidatePath b.gvk) = false →
        registerValidatingWebhook b mux =
          (muxRegister mux (generateValidatePath b.gvk) (Handler.validating t.id),
           [LogEntry.registeringValidating b.gvk (generateValidatePath b.gvk)]))) := by
  refine ⟨isAlreadyHandled_iff mux path, ?_, ?_, ?_⟩
  · intro hne
    rw [Bool.eq_false_iff]
    intro htrue
    exact hne ((isAlreadyHandled_iff mux path).1 htrue).2
  · intro ht hd hw
    constructor
    · intro ha
      simp [registerDefaultingWebhook, ht, hd, DefaultingWebhookFor, hw, ha]
    · intro ha
      simp [registerDefaultingWebhook, ht, hd, DefaultingWebhookFor, hw, ha]
  · intro ht hd hw
    constructor
    · intro ha
      simp [registerValidatingWebhook, ht, hd, ValidatingWebhookFor, hw, ha]
    · intro ha
      simp [registerValidatingWebhook, ht, hd, ValidatingWebhookFor, hw, ha]

/-- Witness for C5: with only a prefix pattern "/" in the table, the mutate
path is not treated as already handled and gets registered; repeating the
registration on the resulting table skips. -/
theorem duplicate_registration_check_witness :
    registerDefaultingWebhook
      ⟨some ⟨7, true, false, false, false⟩, widgetGVK, none, none⟩ [(['/'], Handler.custom 0)] =
      (muxRegister [(['/'], Handler.custom 0)] (generateMutatePath widgetGVK)
        (Handler.mutating 7),
       [LogEntry.registeringMutating widgetGVK (generateMutatePath widgetGVK)]) ∧
    registerDefaultingWebhook
      ⟨some ⟨7, true, false, false, false⟩, widgetGVK, none, none⟩
      (muxRegister [(['/'], Handler.custom 0)] (generateMutatePath widgetGVK)
        (Handler.mutating 7)) =
      (muxRegister [(['/'], Handler.custom 0)] (generateMutatePath widgetGVK)
        (Handler.mutating 7), []) :=
  ⟨((duplicate_registration_check [(['/'], Handler.custom 0)] (generateMutatePath widgetGVK)
      ⟨some ⟨7, true, false, false, false⟩, widgetGVK, none, none⟩
      ⟨7, true, false, false, false⟩).2.2.1 rfl rfl rfl).2 (by decide),
   ((duplicate_registration_check
      (muxRegister [(['/'], Handler.custom 0)] (generateMutatePath widgetGVK)
        (Handler.mutating 7)) (generateMutatePath widgetGVK)
      ⟨some ⟨7, true, false, false, false⟩, widgetGVK, none, none⟩
      ⟨7, true, false, false, false⟩).2.2.1 rfl rfl rfl).1 (by decide)⟩

/-- C6: handler registration is driven purely by independent capability
tests: neither capability gives success with zero handlers; only defaulting
gives exactly one handler at the mutate path and nothing at the validate
path; both capabilities give two handlers at two distinct paths; null
handlers from the constructors give no registration and no error. -/
theorem capability_dispatch (env : Env) (b : WebhookBuilder) (mux : Mux)
    (m : Manager) (t : ApiType) (gvk : GVK)
    (hm : b.mgr = some m) (ht : b.apiType = some t) (hs : m.scheme t.id = some gvk) :
    (t.isDefaulter = false → t.isValidator = false →
      (Complete env b mux).res = GoResult.ok ∧ (Complete env b mux).mux = mux) ∧
    (t.isDefaulter = true → t.isValidator = false → t.defaultingWebhookNil = false →
      isAlreadyHandled mux (generateMutatePath gvk) = false →
      (Complete env b mux).res = GoResult.ok ∧
      (Complete env b mux).mux =
        muxRegister mux (generateMutatePath gvk) (Handler.mutating t.id)) ∧
    (t.isDefaulter = true → t.isValidator = true →
      t.defaultingWebhookNil = false → t.validatingWebhookNil = false →
      isAlreadyHandled mux (generateMutatePath gvk) = false →
      isAlreadyHandled mux (generateValidatePath gvk) = false →
      (Complete env b mux).res = GoResult.ok ∧
      (Complete env b mux).mux =
        muxRegister (muxRegister mux (generateMutatePath gvk) (Handler.mutating t.id))
          (generateValidatePath gvk) (Handler.validating t.id) ∧
      generateMutatePath gvk ≠ generateValidatePath gvk) ∧
    (t.defaultingWebhookNil = true → t.validatingWebhookNil = true →
      (Complete env b mux).res = GoResult.ok ∧ (Complete env b mux).mux = mux) := by
  obtain ⟨bc, heq, hA, hM, _, _⟩ := Complete_eq_registerWebhooks env b mux m hm
  rw [hm] at hM
  rw [ht] at hA
  have hok := registerWebhooks_ok env bc mux m t gvk hM hA hs
  have hb1A : ({ bc with gvk := gvk } : WebhookBuilder).apiType = some t := hA
  refine ⟨?_, ?_, ?_, ?_⟩
  · intro hd hv
    have r1 : registerDefaultingWebhook { bc with gvk := gvk } mux = (mux, []) :=
      registerDefaulting_noop _ _ (by
        intro t' ht'
        rw [hb1A] at ht'
        injection ht' with h
        subst h
        exact Or.inl hd)
    have r2 : registerValidatingWebhook { bc with gvk := gvk } mux = (mux, []) :=
      registerValidating_noop _ _ (by
        intro t' ht'
        rw [hb1A] at ht'
        injection ht' with h
        subst h
        exact Or.inl hv)
    rw [heq, hok]
    simp [r1, r2]
  · intro hd hv hw ha
    have r1 : registerDefaultingWebhook { bc with gvk := gvk } mux =
        (muxRegister mux (generateMutatePath gvk) (Handler.mutating t.id),
         [LogEntry.registeringMutating gvk (generateMutatePath gvk)]) := by
      simp [registerDefaultingWebhook, hA, hd, DefaultingWebhookFor, hw, ha]
    have r2 : registerValidatingWebhook { bc with gvk := gvk }
        (muxRegister mux (generateMutatePath gvk) (Handler.mutating t.id)) =
        (muxRegister mux (generateMutatePath gvk) (Handler.mutating t.id), []) :=
      registerValidating_noop _ _ (by
        intro t' ht'
        rw [hb1A] at ht'
        injection ht' with h
        subst h
        exact Or.inl hv)
    rw [heq, hok]
    simp [r1, r2]
  · intro hd hv hw hvw ha ha2
    have r1 : registerDefaultingWebhook { bc with gvk := gvk } mux =
        (muxRegister mux (generateMutatePath gvk) (Handler.mutating t.id),
         [LogEntry.registeringMutating gvk (generateMutatePath gvk)]) := by
      simp [registerDefaultingWebhook, hA, hd, DefaultingWebhookFor, hw, ha]
    have ha2' : isAlreadyHandled
        (muxRegister mux (generateMutatePath gvk) (Handler.mutating t.id))
        (generateValidatePath gvk) = false := by
      rw [isAlreadyHandled_register_nomatch mux (generateMutatePath gvk)
        (generateValidatePath gvk) (Handler.mutating t.id)
        (patternMatches_mutate_validate gvk gvk)]
      exact ha2
    have r2 : registerValidatingWebhook { bc with gvk := gvk }
        (muxRegister mux (generateMutatePath gvk) (Handler.mutating t.id)) =
        (muxRegister (muxRegister mux (generateMutatePath gvk) (Handler.mutating t.id))
          (generateValidatePath gvk) (Handler.validating t.id),
         [LogEntry.registeringValidating gvk (generateValidatePath gvk)]) := by
      simp [registerValidatingWebhook, hA, hv, ValidatingWebhookFor, hvw, ha2']
    rw [heq, hok]
    refine ⟨by simp, by simp [r1, r2], mutatePath_ne_validatePath gvk gvk⟩
  · intro hw hvw
    have r1 : registerDefaultingWebhook { bc with gvk := gvk } mux = (mux, []) :=
      registerDefaulting_noop _ _ (by
        intro t' ht'
        rw [hb1A] at ht'
        injection ht' with h
        subst h
        exact Or.inr (Or.inl (by simp [DefaultingWebhookFor, hw])))
    have r2 : registerValidatingWebhook { bc with gvk := gvk } mux = (mux, []) :=
      registerValidating_noop _ _ (by
        intro t' ht'
        rw [hb1A] at ht'
        injection ht' with h
        subst h
        exact Or.inr (Or.inl (by simp [ValidatingWebhookFor, hvw])))
    rw [heq, hok]
    simp [r1, r2]

/-- Witness for C6: a defaulter-only type registers exactly its mutating
handler at the mutate path. -/
theorem capability_dispatch_witness :
    (Complete ⟨none, fun _ => true⟩
      ⟨some ⟨7, true, false, false, false⟩, GVK.empty,
        some ⟨⟨0⟩, fun _ => some widgetGVK⟩, none⟩ []).res = GoResult.ok ∧
    (Complete ⟨none, fun _ => true⟩
      ⟨some ⟨7, true, false, false, false⟩, GVK.empty,
        some ⟨⟨0⟩, fun _ => some widgetGVK⟩, none⟩ []).mux =
      muxRegister [] (generateMutatePath widgetGVK) (Handler.mutating 7) :=
  (capability_dispatch ⟨none, fun _ => true⟩
    ⟨some ⟨7, true, false, false, false⟩, GVK.empty,
      some ⟨⟨0⟩, fun _ => some widgetGVK⟩, none⟩ []
    ⟨⟨0⟩, fun _ => some widgetGVK⟩ ⟨7, true, false, false, false⟩ widgetGVK
    rfl rfl rfl).2.1 rfl rfl rfl (by decide)

/-- C10: calling `Complete` a second time on the same builder after a
successful first call is idempotent with respect to the server's path
table: the second call succeeds, changes no builder state and registers no
new handlers. -/
theorem complete_idempotent_second_call (env : Env) (b : WebhookBuilder) (mux : Mux)
    (h : (Complete env b mux).res = GoResult.ok) :
    (Complete env (Complete env b mux).blder (Complete env b mux).mux).res = GoResult.ok ∧
    (Complete env (Complete env b mux).blder (Complete env b mux).mux).blder =
      (Complete env b mux).blder ∧
    (Complete env (Complete env b mux).blder (Complete env b mux).mux).mux =
      (Complete env b mux).mux := by
  cases hMb : b.mgr with
  | none =>
    exfalso
    cases hC : b.config with
    | some c =>
      rw [show Complete env b mux = registerWebhooks env b mux by
        simp [Complete, loadRestConfig, hC]] at h
      simp [registerWebhooks, hMb] at h
    | none =>
      cases hAm : env.ambientConfig with
      | some c =>
        rw [show Complete env b mux = registerWebhooks env { b with config := some c } mux by
          simp [Complete, loadRestConfig, hC, hMb, hAm]] at h
        simp [registerWebhooks, hMb] at h
      | none =>
        rw [show Complete env b mux = ⟨GoResult.err GoError.configResolution, b, mux, []⟩ by
          simp [Complete, loadRestConfig, hC, hMb, hAm]] at h
        cases h
  | some m =>
    obtain ⟨bc, heq, hA, hM, _, hCfg⟩ := Complete_eq_registerWebhooks env b mux m hMb
    rw [hMb] at hM
    cases hAT : bc.apiType with
    | none =>
      rw [heq] at h
      simp [registerWebhooks, hM, GVKForObject, hAT] at h
    | some t =>
      cases hs : m.scheme t.id with
      | none =>
        rw [heq] at h
        simp [registerWebhooks, hM, GVKForObject, hAT, hs] at h
      | some gvk =>
        have hfst : Complete env b mux =
            ⟨GoResult.ok, { bc with gvk := gvk },
             (registerValidatingWebhook { bc with gvk := gvk }
               (registerDefaultingWebhook { bc with gvk := gvk } mux).1).1,
             (registerDefaultingWebhook { bc with gvk := gvk } mux).2 ++
               (registerValidatingWebhook { bc with gvk := gvk }
                 (registerDefaultingWebhook { bc with gvk := gvk } mux).1).2 ++
               (if env.checkConvertibility t.id then []
                else [LogEntry.conversionCheckFailed gvk])⟩ :=
          heq.trans (registerWebhooks_ok env bc mux m t gvk hM hAT hs)
        have hload2 : loadRestConfig env { bc with gvk := gvk } =
            Except.ok { bc with gvk := gvk } := by
          simp [loadRestConfig, hCfg]
        have heq2 : ∀ mx : Mux, Complete env { bc with gvk := gvk } mx =
            registerWebhooks env { bc with gvk := gvk } mx := by
          intro mx
          simp [Complete, hload2]
        have hok2 := registerWebhooks_ok env { bc with gvk := gvk }
          (registerValidatingWebhook { bc with gvk := gvk }
            (registerDefaultingWebhook { bc with gvk := gvk } mux).1).1
          m t gvk hM hAT hs
        have hdone_def : defaultingDone { bc with gvk := gvk }
            (registerValidatingWebhook { bc with gvk := gvk }
              (registerDefaultingWebhook { bc with gvk := gvk } mux).1).1 :=
          defaultingDone_mono _ _ _
            (registerValidating_subset { bc with gvk := gvk }
              (registerDefaultingWebhook { bc with gvk := gvk } mux).1)
            (registerDefaulting_done { bc with gvk := gvk } mux)
        have hdone_val : validatingDone { bc with gvk := gvk }
            (registerValidatingWebhook { bc with gvk := gvk }
              (registerDefaultingWebhook { bc with gvk := gvk } mux).1).1 :=
          registerValidating_done { bc with gvk := gvk }
            (registerDefaultingWebhook { bc with gvk := gvk } mux).1
        have r1' := registerDefaulting_noop _ _ hdone_def
        have r2' := registerValidating_noop _ _ hdone_val
        rw [hfst]
        simp only [heq2, hok2, r1', r2']
        exact ⟨by trivial, by trivial, by trivial⟩

/-- Witness for C10 on a concrete successful run. -/
theorem complete_idempotent_second_call_witness :
    (Complete ⟨none, fun _ => true⟩
      (Complete ⟨none, fun _ => true⟩
        ⟨some ⟨7, true, true, false, false⟩, GVK.empty,
          some ⟨⟨0⟩, fun _ => some widgetGVK⟩, none⟩ []).blder
      (Complete ⟨none, fun _ => true⟩
        ⟨some ⟨7, true, true, false, false⟩, GVK.empty,
          some ⟨⟨0⟩, fun _ => some widgetGVK⟩, none⟩ []).mux).mux =
    (Complete ⟨none, fun _ => true⟩
      ⟨some ⟨7, true, true, false, false⟩, GVK.empty,
        some ⟨⟨0⟩, fun _ => some widgetGVK⟩, none⟩ []).mux :=
  (complete_idempotent_second_call ⟨none, fun _ => true⟩
    ⟨some ⟨7, true, true, false, false⟩, GVK.empty,
      some ⟨⟨0⟩, fun _ => some widgetGVK⟩, none⟩ [] rfl).2.2

end Builder
